import Mathlib

/-!
Verification development for the execution core of the cph fork
(src/executions.ts, src/apiClient.ts, src/quickRun.ts).

The TypeScript source is shallowly embedded: the dispatch decision and the
remote-client response handling become pure Lean functions, the event-driven
local process runner becomes an explicit step relation over a state record,
and the filesystem visible to the remote client becomes an explicit list of
existing paths.  Nondeterminism coming from the outside world (HTTP response,
process exit events, timer firing, file existence, the active editor) is a
parameter of each function, so every observable branch of the source is a
reachable branch of the embedding.
-/

namespace Cph

/-- Normalized execution result, the `Run` record of src/types
(stdout, stderr, code, signal, time, timeOut) as produced by both
src/executions.ts and src/apiClient.ts.  `code`/`signal` are `Option`
because the JavaScript fields can be `null`. -/
structure Run where
  stdout : String
  stderr : String
  code : Option Int
  signal : Option String
  time : Nat
  timeOut : Bool
deriving DecidableEq

/-- Modelled from the spec: the language-name tag of the Language Descriptor.
The type `LangNames` lives in src/types.ts which is not part of src/; its
constructors are exactly the names treated by `mapLanguageToApi`
(src/apiClient.ts lines 13-40) and by the spawn switch in src/executions.ts. -/
inductive LangNames
  | c
  | cpp
  | cc
  | cxx
  | python
  | java
  | js
  | rust
  | go
  | csharp
  | ruby
  | hs
  | cangjie
deriving DecidableEq

/-- The JavaScript string value of a language name (used by
`language.name.toUpperCase()` in the warning messages). -/
def LangNames.str : LangNames → String
  | .c => "c"
  | .cpp => "cpp"
  | .cc => "cc"
  | .cxx => "cxx"
  | .python => "python"
  | .java => "java"
  | .js => "js"
  | .rust => "rust"
  | .go => "go"
  | .csharp => "csharp"
  | .ruby => "ruby"
  | .hs => "hs"
  | .cangjie => "cangjie"

/-- Modelled from the spec: the Language Descriptor (src/types.ts, not in
src/): canonical name, interpreter/compiler command, default arguments and
the skip-local-compile flag — exactly the fields read by src/executions.ts
and src/apiClient.ts. -/
structure Language where
  name : LangNames
  compiler : String
  args : List String
  skipCompile : Bool
deriving DecidableEq

/-- src/apiClient.ts `mapLanguageToApi` (lines 13-40): extension language
name to API language tag; `none` when the cloud API does not accept it. -/
def mapLanguageToApi : LangNames → Option String
  | .c => some "c"
  | .cpp => some "cpp"
  | .cc => some "cpp"
  | .cxx => some "cpp"
  | .python => some "python"
  | .java => some "java"
  | .js => some "javascript"
  | .rust => some "rust"
  | .go => some "go"
  | .csharp => some "csharp"
  | .ruby => none
  | .hs => none
  | .cangjie => none

/-- Boolean list containment used to model `Array.includes`-like checks. -/
def charsHavePre (n h : List Char) : Bool :=
  match n, h with
  | [], _ => true
  | _ :: _, [] => false
  | a :: n2, b :: h2 => a == b && charsHavePre n2 h2

/-- Whether `n` occurs contiguously inside `h`. -/
def charsHaveInner (n h : List Char) : Bool :=
  match h with
  | [] => charsHavePre n []
  | _ :: h2 => charsHavePre n h || charsHaveInner n h2

/-- JavaScript `hay.includes(needle)` on strings. -/
def strContains (hay needle : String) : Bool :=
  charsHaveInner needle.toList hay.toList

/-- JavaScript `s.trim()`: the string with leading and trailing whitespace
removed. -/
def wsTrim (s : String) : String :=
  String.mk
    (((s.toList.dropWhile Char.isWhitespace).reverse.dropWhile
      Char.isWhitespace).reverse)

/-- JavaScript-style suffix test, used for the anchored regex replaces. -/
def strEndsWith (s post : String) : Bool :=
  charsHavePre post.toList.reverse s.toList.reverse

/-- The JavaScript test `!apiUrl || apiUrl.trim() === ''` used by
`shouldUseCloudApi` and `compileAndRunViaApi`: the endpoint setting is
treated as absent when it is missing, empty, or whitespace-only. -/
def apiUrlBlank : Option String → Bool
  | none => true
  | some u => u == "" || wsTrim u == ""

/-- src/apiClient.ts `shouldUseCloudApi` (lines 45-52): cloud execution is
chosen iff an endpoint is configured (non-blank) and the language maps to an
API tag. -/
def shouldUseCloudApi (apiUrl : Option String) (language : Language) : Bool :=
  if apiUrlBlank apiUrl then false
  else (mapLanguageToApi language.name).isSome

/-- JavaScript `v || fallback` on an optional string field of a parsed JSON
body: the fallback is used when the field is absent or the empty string
(both are falsy). -/
def jsOrString (v : Option String) (fallback : String) : String :=
  match v with
  | none => fallback
  | some s => if s == "" then fallback else s

/-- `await response.text().catch(() => 'Unknown error')`: the body text, or
the fallback when reading the body failed. -/
def errorTextOf : Option String → String
  | some t => t
  | none => "Unknown error"

/-- POSIX `path.basename`: the part of the path after the last slash. -/
def basename (p : String) : String :=
  String.mk ((p.toList.reverse.takeWhile (fun c => c != '/')).reverse)

/-- POSIX `path.extname`: the suffix of the basename starting at its last
dot, empty when there is no dot or the dot starts the basename. -/
def extname (p : String) : String :=
  let b := (basename p).toList
  let rev := b.reverse
  let k := List.indexOf '.' rev
  if k == rev.length then ""
  else if k + 1 == rev.length then ""
  else String.mk ((rev.take (k + 1)).reverse)

/-- POSIX `path.dirname`: the part of the path before the last slash,
`"."` when there is none, `"/"` for a top-level entry. -/
def dirname (p : String) : String :=
  let rev := p.toList.reverse
  let k := List.indexOf '/' rev
  if k == rev.length then "."
  else
    let kept := (rev.drop (k + 1)).reverse
    if kept.isEmpty then "/" else String.mk kept

/-- POSIX `path.join` restricted to the two-argument uses in the source
(a directory and a relative file name), with the normalization `path.join`
applies to a `"."` or `"/"` first component. -/
def pathJoin (a b : String) : String :=
  if a == "." then b
  else if a == "/" then "/" ++ b
  else a ++ "/" ++ b

/-- `path.parse(p).name`: the basename without its extension. -/
def parseNameNoExt (p : String) : String :=
  let b := basename p
  b.dropRight (extname p).length

/-- The regex replace `` apiUrl.replace(/\/$/, '') `` (drop one trailing
slash) from src/apiClient.ts line 121. -/
def stripTrailingSlash (s : String) : String :=
  if strEndsWith s "/" then s.dropRight 1 else s

/-- The regex replace `` binPath.replace(/\.(bin|_bin)$/, '') `` from
src/executions.ts line 56: strip a trailing `._bin`, else a trailing
`.bin`, else leave the path unchanged. -/
def stripBinSuffix (p : String) : String :=
  if strEndsWith p "._bin" then p.dropRight 5
  else if strEndsWith p ".bin" then p.dropRight 4
  else p

/-- The JSON body of a 2xx cloud response as read by src/apiClient.ts
lines 154-176: a success flag, an optional output string and an optional
error string. -/
structure ApiJson where
  success : Bool
  output : Option String
  error : Option String
deriving DecidableEq

/-- Outcome of `await response.json()`: a parsed body, or the message of
the exception it threw (which falls into the outer catch). -/
inductive JsonOutcome
  | parsed (j : ApiJson)
  | parseFailed (msg : String)
deriving DecidableEq

/-- Outcome of `await fetch(endpoint, ...)`: an HTTP response (status,
the text body a later `response.text()` would yield, and the JSON body a
later `response.json()` would yield), or a thrown network-layer exception.
A thrown exception carries `some message` when it is an `Error` or a
string, `none` for any other thrown value. -/
inductive FetchOutcome
  | resp (status : Nat) (textBody : Option String) (jsonBody : JsonOutcome)
  | thrown (errMsg : Option String)
deriving DecidableEq

/-- Environment of one `compileAndRunViaApi` call: the files existing
before the call, the temp-file name `cph_input_<time>_<random>.txt` chosen
for this call, whether `fs.readFileSync(srcPath)` throws (and with what
message), the fetch outcome, and the wall-clock delta `end - begin`. -/
structure ApiEnv where
  fs0 : List String
  tmpName : String
  srcReadError : Option String
  fetch : FetchOutcome
  elapsed : Nat
deriving DecidableEq

/-- The multipart request assembled by src/apiClient.ts lines 98-113:
the `lang` tag part, the `code` file part named after the source file, and
whether an `input` file part was appended. -/
structure ApiRequest where
  lang : String
  codeFileName : String
  hasInputPart : Bool
deriving DecidableEq

/-- How one `compileAndRunViaApi` call ends at its boundary: a returned
`Run`, or a thrown error (the two guard throws at src/apiClient.ts
lines 70 and 77). -/
inductive CallResult
  | returned (r : Run)
  | threw (msg : String)
deriving DecidableEq

/-- `fs.unlinkSync`: removes the path, raising when it does not exist. -/
def unlinkSync (fs : List String) (p : String) : Except String (List String) :=
  if p ∈ fs then .ok (fs.filter (fun q => q != p))
  else .error ("ENOENT: no such file " ++ p)

/-- The `finally` block of src/apiClient.ts lines 207-217: when an input
temp file was chosen and still exists, unlink it, swallowing any unlink
error; otherwise do nothing.  An `.error` outcome would mean an exception
escaped the cleanup step. -/
def cleanupTempInput (fs : List String) (ip : Option String) :
    Except String (List String) :=
  match ip with
  | none => .ok fs
  | some q =>
    if q ∈ fs then
      match unlinkSync fs q with
      | .ok fs2 => .ok fs2
      | .error _ => .ok fs
    else .ok fs

/-- The filesystem left by the cleanup step, as a total function. -/
def cleanupFs (fs : List String) (ip : Option String) : List String :=
  match ip with
  | none => fs
  | some q => if q ∈ fs then fs.filter (fun r => r != q) else fs

/-- Everything observable about one `compileAndRunViaApi` call: its
returned-or-thrown result, the multipart request it assembled (if it got
that far), whether it created a temp input file, and the filesystem after
the `finally` cleanup. -/
structure ApiCallOutcome where
  result : CallResult
  request : Option ApiRequest
  tempCreated : Bool
  fsFinal : List String
deriving DecidableEq

/-- The warning thrown for a cloud-unsupported language
(src/apiClient.ts lines 74-77). -/
def unsupportedCloudMessage (language : Language) : String :=
  "This language (" ++ language.name.str.toUpper ++
    ") is not yet supported by the cloud compiler. The developers are working on adding support for it. Please use local compilation for now."

/-- The catch block's message classification (src/apiClient.ts
lines 183-195): extract a message from the thrown value, then rewrite the
common network failures into human-readable advice mentioning the
configured endpoint. -/
def classifyApiError (apiUrl : String) (errMsg : Option String) : String :=
  let errorMessage := match errMsg with
    | some m => m
    | none => "Unknown error"
  if strContains errorMessage "ECONNREFUSED" || strContains errorMessage "ENOTFOUND" then
    "Cannot connect to cloud compiler API at " ++ apiUrl ++
      ". Please check if the server is running and the URL is correct."
  else if strContains errorMessage "ETIMEDOUT" || strContains errorMessage "timeout" then
    "Request to cloud compiler API timed out. Please try again."
  else errorMessage

/-- Assemble the outcome after running the `finally` cleanup, propagating a
cleanup exception into the result the way a throwing `finally` block
would (the cleanup in fact never throws, which is proved below). -/
def finalizeCall (r : CallResult) (req : Option ApiRequest) (tc : Bool)
    (fs : List String) (ip : Option String) : ApiCallOutcome :=
  match cleanupTempInput fs ip with
  | .ok fs2 => { result := r, request := req, tempCreated := tc, fsFinal := fs2 }
  | .error e => { result := .threw e, request := req, tempCreated := tc, fsFinal := fs }

/-- src/apiClient.ts `compileAndRunViaApi` (lines 61-218).  Guard throws
for a blank endpoint or unmapped language; then inside try/catch/finally:
create the temp input file when the input is non-empty and non-blank,
read the source (a read failure falls to the catch classification), build
the multipart request, fetch, and translate the response — non-2xx into a
result carrying the HTTP status, a 2xx JSON body into code 0 or 1, and any
thrown error into a classified code-1 result — always cleaning up the
temp input file in the `finally` step. -/
def compileAndRunViaApi (apiUrl : Option String) (srcPath : String)
    (input : String) (language : Language) (env : ApiEnv) : ApiCallOutcome :=
  if apiUrlBlank apiUrl then
    { result := .threw "Cloud API not configured", request := none,
      tempCreated := false, fsFinal := env.fs0 }
  else
    match mapLanguageToApi language.name with
    | none =>
      { result := .threw (unsupportedCloudMessage language), request := none,
        tempCreated := false, fsFinal := env.fs0 }
    | some apiLang =>
      let url := match apiUrl with
        | some u => u
        | none => ""
      let createsTemp : Bool := !(input == "") && !(wsTrim input == "")
      let inputFilePath : Option String :=
        if createsTemp then some env.tmpName else none
      let fs1 := if createsTemp then env.tmpName :: env.fs0 else env.fs0
      match env.srcReadError with
      | some msg =>
        finalizeCall
          (.returned { stdout := "", stderr := classifyApiError url (some msg),
                       code := some 1, signal := none, time := env.elapsed,
                       timeOut := false })
          none createsTemp fs1 inputFilePath
      | none =>
        let request : ApiRequest :=
          { lang := apiLang, codeFileName := basename srcPath,
            hasInputPart := match inputFilePath with
              | some p => decide (p ∈ fs1)
              | none => false }
        match env.fetch with
        | .thrown em =>
          finalizeCall
            (.returned { stdout := "", stderr := classifyApiError url em,
                         code := some 1, signal := none, time := env.elapsed,
                         timeOut := false })
            (some request) createsTemp fs1 inputFilePath
        | .resp status textBody jsonBody =>
          if 200 ≤ status ∧ status ≤ 299 then
            match jsonBody with
            | .parseFailed jm =>
              finalizeCall
                (.returned { stdout := "", stderr := classifyApiError url (some jm),
                             code := some 1, signal := none, time := env.elapsed,
                             timeOut := false })
                (some request) createsTemp fs1 inputFilePath
            | .parsed j =>
              if j.success then
                finalizeCall
                  (.returned { stdout := jsOrString j.output "", stderr := "",
                               code := some 0, signal := none, time := env.elapsed,
                               timeOut := false })
                  (some request) createsTemp fs1 inputFilePath
              else
                finalizeCall
                  (.returned { stdout := jsOrString j.output "",
                               stderr := jsOrString j.error "Unknown error",
                               code := some 1, signal := none, time := env.elapsed,
                               timeOut := false })
                  (some request) createsTemp fs1 inputFilePath
          else
            finalizeCall
              (.returned { stdout := "",
                           stderr := "API request failed with status " ++
                             toString status ++ ": " ++ errorTextOf textBody,
                           code := some (Int.ofNat status), signal := none,
                           time := env.elapsed, timeOut := false })
              (some request) createsTemp fs1 inputFilePath

/-- The `possibleExtensions` table of src/executions.ts lines 57-66, read
with `possibleExtensions[language.name] || []` (line 67): source
extensions probed for each compiled language name, empty for names not in
the table. -/
def possibleExtensions : LangNames → List String
  | .cpp => [".cpp", ".cc", ".cxx"]
  | .c => [".c"]
  | .rust => [".rs"]
  | .go => [".go"]
  | .java => [".java"]
  | .csharp => [".cs"]
  | .hs => [".hs"]
  | .cangjie => [".cj"]
  | _ => []

/-- Source-path resolution of src/executions.ts lines 48-85: for
skip-compile languages the binary path is the source path; for a `.bin`
binary, strip the marker suffix and take the first probed source extension
that exists on disk (the bare base path when none does); for a `.class`
file, the sibling `.java` file; otherwise fall back to the binary path. -/
def resolveSrcPath (language : Language) (binPath : String)
    (fsEx : String → Bool) : String :=
  if language.skipCompile then binPath
  else
    let binExt := extname binPath
    if binExt == ".bin" || binExt == "_bin" then
      let basePath := stripBinSuffix binPath
      let exts := possibleExtensions language.name
      match exts.find? (fun e => fsEx (basePath ++ e)) with
      | some e => basePath ++ e
      | none => basePath
    else if binExt == ".class" then
      pathJoin (dirname binPath) (parseNameNoExt binPath ++ ".java")
    else binPath

/-- How one `runTestCase` call proceeds after its routing decision:
delegate to `compileAndRunViaApi` with a resolved source path, return the
source-resolution failure result without executing anything, or run the
local process path. -/
inductive Dispatch
  | remoteCall (srcPath : String)
  | srcError (r : Run)
  | localRun
deriving DecidableEq

/-- The result returned at src/executions.ts lines 95-102 when no source
path can be determined for cloud compilation. -/
def cloudSrcErrorRun : Run :=
  { stdout := "", stderr := "Could not determine source file path for cloud compilation",
    code := some 1, signal := none, time := 0, timeOut := false }

/-- The routing head of src/executions.ts `runTestCase` (lines 29-108):
count the fall-back advisory (shown when an endpoint is configured but the
language has no API tag), and decide between the cloud path — resolving a
source path, falling back to the active editor's file, or failing — and
the local path.  `fsEx` is `fs.existsSync` and `activeEditorFile` is the
active non-untitled editor document, if any. -/
def runTestCaseDispatch (apiUrl : Option String) (language : Language)
    (binPath : String) (fsEx : String → Bool)
    (activeEditorFile : Option String) : Dispatch × Nat :=
  let apiLanguage := mapLanguageToApi language.name
  let warnings := if apiUrlBlank apiUrl = false ∧ apiLanguage = none then 1 else 0
  if shouldUseCloudApi apiUrl language then
    let srcPath := resolveSrcPath language binPath fsEx
    if fsEx srcPath then (Dispatch.remoteCall srcPath, warnings)
    else
      match activeEditorFile with
      | some f => (Dispatch.remoteCall f, warnings)
      | none => (Dispatch.srcError cloudSrcErrorRun, warnings)
  else (Dispatch.localRun, warnings)

/-- The command and argument list handed to `spawn`. -/
structure SpawnSpec where
  cmd : String
  args : List String
deriving DecidableEq

/-- The local launch of src/executions.ts lines 134-205: first the Windows
hack that assigns `language.compiler = 'python'` when the declared compiler
is `python3` (this mutates the descriptor), then the per-language spawn
switch.  Returns the descriptor as it is after the call together with the
spawn spec.  `plat` is `os.platform()` and `oj` is `onlineJudgeEnv`. -/
def localSpawn (plat : String) (language : Language) (binPath : String)
    (oj : Bool) : Language × SpawnSpec :=
  let language :=
    if plat = "win32" ∧ language.compiler = "python3" then
      { language with compiler := "python" }
    else language
  let spec : SpawnSpec :=
    match language.name with
    | .python => { cmd := language.compiler, args := binPath :: language.args }
    | .ruby => { cmd := language.compiler, args := binPath :: language.args }
    | .js => { cmd := language.compiler, args := binPath :: language.args }
    | .java =>
      let ojArgs := if oj then ["-DONLINE_JUDGE"] else []
      let binDir := dirname binPath
      let binFileName := (parseNameNoExt binPath).dropRight 1
      { cmd := "java", args := ojArgs ++ ["-cp", binDir, binFileName] }
    | .csharp =>
      if strContains language.compiler "dotnet" then
        let projName := ".cphcsrun"
        let binFileName := if plat = "linux" then projName else projName ++ ".exe"
        { cmd := pathJoin binPath binFileName, args := ["/stack:67108864"] }
      else
        { cmd := "mono", args := [binPath] }
    | _ => { cmd := binPath, args := [] }
  (language, spec)

/-- Events the environment can deliver to one local `runTestCase`
promise: the timeout timer firing, stdout/stderr data chunks, the
process's `exit` event (with the code/signal Node reports and the
wall-clock time at that moment), and the process's `error` event. -/
inductive LEvent
  | timerFire
  | outData (s : String)
  | errData (s : String)
  | exited (code : Option Int) (signal : Option String) (t : Nat)
  | failed (name : String) (t : Nat)
deriving DecidableEq

/-- State of one local `runTestCase` call: the shared mutable `result`
record, whether the timeout timer already fired / was cleared, the value
the promise resolved with (if any), and the kill signals sent to the
process so far. -/
structure LState where
  res : Run
  timerFired : Bool
  timerCleared : Bool
  resolved : Option Run
  kills : List String
deriving DecidableEq

/-- The state right after spawn: empty buffers, `code`/`signal` null,
`timeOut` false (src/executions.ts lines 110-117), live timer, pending
promise, no kill sent. -/
def initLState : LState :=
  { res := { stdout := "", stderr := "", code := none, signal := none,
             time := 0, timeOut := false },
    timerFired := false, timerCleared := false, resolved := none, kills := [] }

/-- One event handler step of the local runner.  The timer callback
(src/executions.ts lines 129-132) sets `result.timeOut = true` and calls
`process.kill()`, which sends a single default SIGTERM; a timer fires at
most once and not after `clearTimeout`.  The `exit` handler (lines
217-226) clears the timer, records code/signal/time and resolves; the
`error` handler (lines 241-250) clears the timer, records code 1 and the
error name as the signal, and resolves.  A promise resolves only once, so
the first resolution wins. -/
def lstep (s : LState) : LEvent → LState
  | .timerFire =>
    if s.timerFired || s.timerCleared then s
    else
      { s with
        res := { s.res with timeOut := true },
        timerFired := true,
        kills := s.kills ++ ["SIGTERM"] }
  | .outData d => { s with res := { s.res with stdout := s.res.stdout ++ d } }
  | .errData d => { s with res := { s.res with stderr := s.res.stderr ++ d } }
  | .exited c sig t =>
    let r := { s.res with code := c, signal := sig, time := t }
    { s with
      res := r,
      timerCleared := true,
      resolved := match s.resolved with
        | some r0 => some r0
        | none => some r }
  | .failed n t =>
    let r := { s.res with code := some 1, signal := some n, time := t }
    { s with
      res := r,
      timerCleared := true,
      resolved := match s.resolved with
        | some r0 => some r0
        | none => some r }

/-- Run one local call over a sequence of environment events. -/
def runLocal (es : List LEvent) : LState :=
  es.foldl lstep initLState

/-- Whether the timer fires before any terminal (`exit`/`error`) event:
the situation of a process that has not finished when the configured
timeout elapses. -/
def firedBeforeTerminal : List LEvent → Bool
  | [] => false
  | LEvent.timerFire :: _ => true
  | LEvent.exited _ _ _ :: _ => false
  | LEvent.failed _ _ :: _ => false
  | _ :: es => firedBeforeTerminal es

/-- Whether the event list contains no terminal event at all. -/
def noTerminal : List LEvent → Bool
  | [] => true
  | LEvent.exited _ _ _ :: _ => false
  | LEvent.failed _ _ :: _ => false
  | _ :: es => noTerminal es

/-- Whether the timer never fires in the event list. -/
def noTimerFire (es : List LEvent) : Bool :=
  es.all fun e => match e with
    | LEvent.timerFire => false
    | _ => true

/-- Whether no `error` event occurs in the event list. -/
def noFailEvent (es : List LEvent) : Bool :=
  es.all fun e => match e with
    | LEvent.failed _ _ => false
    | _ => true

/-- Node's `exit` event contract: each exit reports exactly one of a
numeric code or a signal name. -/
def exitsWellFormed (es : List LEvent) : Bool :=
  es.all fun e => match e with
    | LEvent.exited c s _ => (c.isSome && s.isNone) || (c.isNone && s.isSome)
    | _ => true

/-- Events touching the module-level `runningBinaries` array and the
OS-level set of running processes: a spawn (which pushes the process and
starts it), the `exit`/`error` handler of process `p` (each executes
`runningBinaries.pop()`), and `killRunning` (which sends a kill to every
registered process but deletes no entry). -/
inductive RegEvent
  | start (p : Nat)
  | exitHandler (p : Nat)
  | errorHandler (p : Nat)
  | killAll
deriving DecidableEq

/-- The In-Flight Process Registry state: the `runningBinaries` array, the
set of processes actually still running, and the kill requests sent. -/
structure RegState where
  registry : List Nat
  running : List Nat
  kills : List Nat
deriving DecidableEq

/-- One registry transition, from src/executions.ts: `start` is
`runningBinaries.push(process)` (line 216), the two handlers each run
`runningBinaries.pop()` — removing the most recently pushed entry,
whichever process it belongs to — while process `p` itself stops
(lines 223 and 247), and `killAll` is `killRunning`
(lines 293-297), which calls `process.kill()` on every registered entry
and removes none of them. -/
def regStep (s : RegState) : RegEvent → RegState
  | .start p =>
    { s with
      registry := s.registry ++ [p],
      running := s.running ++ [p] }
  | .exitHandler p =>
    { s with
      registry := s.registry.dropLast,
      running := s.running.filter (fun q => q != p) }
  | .errorHandler p =>
    { s with
      registry := s.registry.dropLast,
      running := s.running.filter (fun q => q != p) }
  | .killAll =>
    { s with kills := s.kills ++ s.registry }

/-- Run the registry from a state over a sequence of events. -/
def regRun (s : RegState) (es : List RegEvent) : RegState :=
  es.foldl regStep s

/-- The registry at host-program start: empty, nothing running. -/
def initRegState : RegState :=
  { registry := [], running := [], kills := [] }

/-- Exactly one of exit-code-present, signal-present, timed-out holds of
a result — the invariant claimed in the spec's data model. -/
def endedExactlyOne (r : Run) : Bool :=
  (r.code.isSome && r.signal.isNone && !r.timeOut) ||
  (r.code.isNone && r.signal.isSome && !r.timeOut) ||
  (r.code.isNone && r.signal.isNone && r.timeOut)

/-! ## Helper lemmas about the remote client -/

/-- The cleanup step never propagates an exception: it yields exactly the
filesystem described by `cleanupFs`. -/
theorem cleanup_eq (fs : List String) (ip : Option String) :
    cleanupTempInput fs ip = .ok (cleanupFs fs ip) := by
  cases ip with
  | none => rfl
  | some q =>
    unfold cleanupTempInput cleanupFs unlinkSync
    by_cases h : q ∈ fs <;> simp [h]

/-- After cleanup, the temp input path is gone. -/
theorem cleanupFs_removes (fs : List String) (p : String) :
    p ∉ cleanupFs fs (some p) := by
  unfold cleanupFs
  by_cases h : p ∈ fs <;> simp [h, List.mem_filter]

theorem finalize_result (r : CallResult) (req : Option ApiRequest) (tc : Bool)
    (fs : List String) (ip : Option String) :
    (finalizeCall r req tc fs ip).result = r := by
  unfold finalizeCall
  rw [cleanup_eq]

theorem finalize_request (r : CallResult) (req : Option ApiRequest) (tc : Bool)
    (fs : List String) (ip : Option String) :
    (finalizeCall r req tc fs ip).request = req := by
  unfold finalizeCall
  rw [cleanup_eq]

theorem finalize_tempCreated (r : CallResult) (req : Option ApiRequest) (tc : Bool)
    (fs : List String) (ip : Option String) :
    (finalizeCall r req tc fs ip).tempCreated = tc := by
  unfold finalizeCall
  rw [cleanup_eq]

theorem finalize_fsFinal (r : CallResult) (req : Option ApiRequest) (tc : Bool)
    (fs : List String) (ip : Option String) :
    (finalizeCall r req tc fs ip).fsFinal = cleanupFs fs ip := by
  unfold finalizeCall
  rw [cleanup_eq]

/-- The temp-file guard `input && input.trim() !== ''` is equivalent to the
input being non-blank (non-empty after trimming). -/
theorem createsTemp_iff (input : String) :
    ((!(input == "") && !(wsTrim input == "")) = true) ↔ wsTrim input ≠ "" := by
  constructor
  · intro h
    rw [Bool.and_eq_true] at h
    simpa using h.2
  · intro ht
    have hi : input ≠ "" := by
      intro he
      exact ht (by rw [he]; rfl)
    simp [hi, ht]

/-- Every `Run` actually returned by the remote client carries no signal,
no timeout flag, and a present exit code. -/
theorem api_returned_shape (apiUrl : Option String) (srcPath input : String)
    (language : Language) (env : ApiEnv) (r : Run)
    (h : (compileAndRunViaApi apiUrl srcPath input language env).result =
      CallResult.returned r) :
    r.signal = none ∧ r.timeOut = false ∧ r.code.isSome = true := by
  unfold compileAndRunViaApi at h
  dsimp only at h
  split at h
  · simp at h
  · split at h
    · simp at h
    · split at h
      · rw [finalize_result] at h
        injection h with h2
        subst h2
        exact ⟨rfl, rfl, rfl⟩
      · split at h
        · rw [finalize_result] at h
          injection h with h2
          subst h2
          exact ⟨rfl, rfl, rfl⟩
        · split at h
          · split at h
            · rw [finalize_result] at h
              injection h with h2
              subst h2
              exact ⟨rfl, rfl, rfl⟩
            · split at h
              · rw [finalize_result] at h
                injection h with h2
                subst h2
                exact ⟨rfl, rfl, rfl⟩
              · rw [finalize_result] at h
                injection h with h2
                subst h2
                exact ⟨rfl, rfl, rfl⟩
          · rw [finalize_result] at h
            injection h with h2
            subst h2
            exact ⟨rfl, rfl, rfl⟩

/-! ## Helper lemmas about the local runner machine -/

/-- What holds of the call state from the moment the timeout timer has
fired: the shared result is marked timed out, exactly one default SIGTERM
was sent, the timer flag is set, and any resolution captured the timed-out
result. -/
def postFire (s : LState) : Prop :=
  s.res.timeOut = true ∧ s.kills = ["SIGTERM"] ∧ s.timerFired = true ∧
    ∀ r, s.resolved = some r → r.timeOut = true

/-- What holds of the call state before the timer has fired or been
cleared and before any resolution. -/
def preFire (s : LState) : Prop :=
  s.timerFired = false ∧ s.timerCleared = false ∧ s.resolved = none ∧ s.kills = []

theorem lstep_postFire (s : LState) (e : LEvent) (h : postFire s) :
    postFire (lstep s e) := by
  obtain ⟨h1, h2, h3, h4⟩ := h
  cases e with
  | timerFire =>
    simp only [lstep, h3, Bool.true_or, if_pos]
    exact ⟨h1, h2, h3, h4⟩
  | outData d =>
    exact ⟨h1, h2, h3, fun r hr => h4 r hr⟩
  | errData d =>
    exact ⟨h1, h2, h3, fun r hr => h4 r hr⟩
  | exited c sig t =>
    refine ⟨h1, h2, h3, ?_⟩
    intro r hr
    simp only [lstep] at hr
    cases hs : s.resolved with
    | some r0 =>
      rw [hs] at hr
      exact h4 r (hs.trans hr)
    | none =>
      rw [hs] at hr
      injection hr with hr2
      rw [← hr2]
      exact h1
  | failed n t =>
    refine ⟨h1, h2, h3, ?_⟩
    intro r hr
    simp only [lstep] at hr
    cases hs : s.resolved with
    | some r0 =>
      rw [hs] at hr
      exact h4 r (hs.trans hr)
    | none =>
      rw [hs] at hr
      injection hr with hr2
      rw [← hr2]
      exact h1

theorem foldl_postFire (es : List LEvent) (s : LState) (h : postFire s) :
    postFire (es.foldl lstep s) := by
  induction es generalizing s with
  | nil => exact h
  | cons e es ih => exact ih _ (lstep_postFire s e h)

theorem firedBefore_foldl (es : List LEvent) (s : LState)
    (hp : preFire s) (hf : firedBeforeTerminal es = true) :
    postFire (es.foldl lstep s) := by
  induction es generalizing s with
  | nil => simp [firedBeforeTerminal] at hf
  | cons e es ih =>
    obtain ⟨p1, p2, p3, p4⟩ := hp
    cases e with
    | timerFire =>
      have hg : (s.timerFired || s.timerCleared) = false := by rw [p1, p2]; rfl
      have hstep : lstep s LEvent.timerFire =
          { s with
            res := { s.res with timeOut := true },
            timerFired := true,
            kills := s.kills ++ ["SIGTERM"] } := by
        simp [lstep, hg]
      rw [List.foldl_cons, hstep]
      apply foldl_postFire
      refine ⟨rfl, by simp [p4], rfl, ?_⟩
      intro r hr
      simp only [p3] at hr
      cases hr
    | outData d =>
      rw [List.foldl_cons]
      exact ih _ ⟨p1, p2, p3, p4⟩ (by simpa [firedBeforeTerminal] using hf)
    | errData d =>
      rw [List.foldl_cons]
      exact ih _ ⟨p1, p2, p3, p4⟩ (by simpa [firedBeforeTerminal] using hf)
    | exited c sig t => simp [firedBeforeTerminal] at hf
    | failed n t => simp [firedBeforeTerminal] at hf

/-- Non-terminal events never resolve the promise. -/
theorem noTerminal_foldl (es : List LEvent) (s : LState)
    (h : noTerminal es = true) :
    (es.foldl lstep s).resolved = s.resolved := by
  induction es generalizing s with
  | nil => rfl
  | cons e es ih =>
    cases e with
    | timerFire =>
      rw [List.foldl_cons, ih _ (by simpa [noTerminal] using h)]
      simp only [lstep]
      split <;> rfl
    | outData d =>
      rw [List.foldl_cons, ih _ (by simpa [noTerminal] using h)]
      rfl
    | errData d =>
      rw [List.foldl_cons, ih _ (by simpa [noTerminal] using h)]
      rfl
    | exited c sig t => simp [noTerminal] at h
    | failed n t => simp [noTerminal] at h

/-- Invariant of a run in which the timer never fired and no spawn error
occurred: the shared result is not marked timed out, and any resolution so
far satisfies the exactly-one terminal characterization. -/
def calmInv (s : LState) : Prop :=
  s.res.timeOut = false ∧ ∀ r, s.resolved = some r → endedExactlyOne r = true

theorem calm_foldl (es : List LEvent) (s : LState) (h : calmInv s)
    (hnf : noTimerFire es = true) (hne : noFailEvent es = true)
    (hwf : exitsWellFormed es = true) : calmInv (es.foldl lstep s) := by
  induction es generalizing s with
  | nil => exact h
  | cons e es ih =>
    rw [noTimerFire, List.all_cons, Bool.and_eq_true] at hnf
    rw [noFailEvent, List.all_cons, Bool.and_eq_true] at hne
    rw [exitsWellFormed, List.all_cons, Bool.and_eq_true] at hwf
    obtain ⟨h1, h2⟩ := h
    cases e with
    | timerFire => simp at hnf
    | failed n t => simp at hne
    | outData d =>
      exact ih _ ⟨h1, fun r hr => h2 r hr⟩ hnf.2 hne.2 hwf.2
    | errData d =>
      exact ih _ ⟨h1, fun r hr => h2 r hr⟩ hnf.2 hne.2 hwf.2
    | exited c sig t =>
      refine ih _ ⟨h1, ?_⟩ hnf.2 hne.2 hwf.2
      intro r hr
      simp only [lstep] at hr
      cases hs : s.resolved with
      | some r0 =>
        rw [hs] at hr
        exact h2 r (hs.trans hr)
      | none =>
        rw [hs] at hr
        injection hr with hr2
        rw [← hr2]
        have hw : ((c.isSome && sig.isNone) || (c.isNone && sig.isSome)) = true := by
          simpa using hwf.1
        cases c <;> cases sig <;> simp_all [endedExactlyOne]

/-- A spawn-error event appended to an unresolved run resolves the call
with exit code 1 and the error name recorded as the signal. -/
theorem failed_append_resolves (es : List LEvent) (n : String) (t : Nat)
    (h : noTerminal es = true) :
    ∃ r, (runLocal (es ++ [LEvent.failed n t])).resolved = some r ∧
      r.code = some 1 ∧ r.signal = some n := by
  unfold runLocal
  rw [List.foldl_append, List.foldl_cons, List.foldl_nil]
  have hres : (List.foldl lstep initLState es).resolved = none := by
    rw [noTerminal_foldl es initLState h]
    rfl
  refine ⟨{ (List.foldl lstep initLState es).res with
            code := some 1, signal := some n, time := t }, ?_, rfl, rfl⟩
  simp only [lstep, hres]

/-- Once past the two guard throws, the remote client reports the temp
file as created exactly when the JavaScript guard
`input && input.trim() !== ''` held, on every exit path. -/
theorem api_tempCreated_val (apiUrl : Option String) (srcPath input : String)
    (language : Language) (env : ApiEnv) (tag : String)
    (hb : apiUrlBlank apiUrl = false)
    (hm : mapLanguageToApi language.name = some tag) :
    (compileAndRunViaApi apiUrl srcPath input language env).tempCreated =
      (!(input == "") && !(wsTrim input == "")) := by
  obtain ⟨fs0, tmp, sre, fetch, el⟩ := env
  cases sre with
  | some msg => simp [compileAndRunViaApi, hb, hm, finalize_tempCreated]
  | none =>
    rcases fetch with ⟨st, tb, jb⟩ | em
    · by_cases hok : 200 ≤ st ∧ st ≤ 299
      · rcases jb with j | jm
        · by_cases hsucc : j.success = true
          · simp [compileAndRunViaApi, hb, hm, hok, hsucc, finalize_tempCreated]
          · rw [Bool.not_eq_true] at hsucc
            simp [compileAndRunViaApi, hb, hm, hok, hsucc, finalize_tempCreated]
        · simp [compileAndRunViaApi, hb, hm, hok, finalize_tempCreated]
      · simp [compileAndRunViaApi, hb, hm, hok, finalize_tempCreated]
    · simp [compileAndRunViaApi, hb, hm, finalize_tempCreated]

/-- Once past the two guard throws, the filesystem left behind is exactly
the one the `finally` cleanup produces, on every exit path. -/
theorem api_fsFinal_val (apiUrl : Option String) (srcPath input : String)
    (language : Language) (env : ApiEnv) (tag : String)
    (hb : apiUrlBlank apiUrl = false)
    (hm : mapLanguageToApi language.name = some tag) :
    (compileAndRunViaApi apiUrl srcPath input language env).fsFinal =
      cleanupFs
        (if (!(input == "") && !(wsTrim input == "")) = true
          then env.tmpName :: env.fs0 else env.fs0)
        (if (!(input == "") && !(wsTrim input == "")) = true
          then some env.tmpName else none) := by
  obtain ⟨fs0, tmp, sre, fetch, el⟩ := env
  cases sre with
  | some msg => simp [compileAndRunViaApi, hb, hm, finalize_fsFinal]
  | none =>
    rcases fetch with ⟨st, tb, jb⟩ | em
    · by_cases hok : 200 ≤ st ∧ st ≤ 299
      · rcases jb with j | jm
        · by_cases hsucc : j.success = true
          · simp [compileAndRunViaApi, hb, hm, hok, hsucc, finalize_fsFinal]
          · rw [Bool.not_eq_true] at hsucc
            simp [compileAndRunViaApi, hb, hm, hok, hsucc, finalize_fsFinal]
        · simp [compileAndRunViaApi, hb, hm, hok, finalize_fsFinal]
      · simp [compileAndRunViaApi, hb, hm, hok, finalize_fsFinal]
    · simp [compileAndRunViaApi, hb, hm, finalize_fsFinal]

/-- When the source read succeeds, the multipart request is assembled with
the API tag, the source file's basename, and an input part exactly when
the temp input file was created. -/
theorem api_request_val (apiUrl : Option String) (srcPath input : String)
    (language : Language) (tag : String) (fs0 : List String) (tmp : String)
    (fetch : FetchOutcome) (el : Nat)
    (hb : apiUrlBlank apiUrl = false)
    (hm : mapLanguageToApi language.name = some tag) :
    (compileAndRunViaApi apiUrl srcPath input language
      { fs0 := fs0, tmpName := tmp, srcReadError := none, fetch := fetch,
        elapsed := el }).request =
      some { lang := tag, codeFileName := basename srcPath,
             hasInputPart := !(input == "") && !(wsTrim input == "") } := by
  rcases Bool.eq_false_or_eq_true (!(input == "") && !(wsTrim input == "")) with hct | hct
  · rcases fetch with ⟨st, tb, jb⟩ | em
    · by_cases hok : 200 ≤ st ∧ st ≤ 299
      · rcases jb with j | jm
        · by_cases hsucc : j.success = true
          · simp [compileAndRunViaApi, hb, hm, hok, hsucc, hct, finalize_request]
          · rw [Bool.not_eq_true] at hsucc
            simp [compileAndRunViaApi, hb, hm, hok, hsucc, hct, finalize_request]
        · simp [compileAndRunViaApi, hb, hm, hok, hct, finalize_request]
      · simp [compileAndRunViaApi, hb, hm, hok, hct, finalize_request]
    · simp [compileAndRunViaApi, hb, hm, hct, finalize_request]
  · rcases fetch with ⟨st, tb, jb⟩ | em
    · by_cases hok : 200 ≤ st ∧ st ≤ 299
      · rcases jb with j | jm
        · by_cases hsucc : j.success = true
          · simp [compileAndRunViaApi, hb, hm, hok, hsucc, hct, finalize_request]
          · rw [Bool.not_eq_true] at hsucc
            simp [compileAndRunViaApi, hb, hm, hok, hsucc, hct, finalize_request]
        · simp [compileAndRunViaApi, hb, hm, hok, hct, finalize_request]
      · simp [compileAndRunViaApi, hb, hm, hok, hct, finalize_request]
    · simp [compileAndRunViaApi, hb, hm, hct, finalize_request]

/-! ## Claims -/

/-- C1 counterexample: with a configured endpoint and a mapped language
(python, skip-compile), a binary path that does not exist on disk and no
active editor make `runTestCase` return the source-resolution error result
without ever calling `compileAndRunViaApi` — the claim's first case says
such a call is routed to the Remote Execution Client. -/
theorem runTestCase_remote_route_counterexample :
    runTestCaseDispatch (some "http://localhost:3000")
      { name := LangNames.python, compiler := "python3", args := [],
        skipCompile := true }
      "/absent/sol.py" (fun _ => false) none
    = (Dispatch.srcError cloudSrcErrorRun, 0) := by decide

/-- C1 (amended): with a configured (non-blank) endpoint and a language
that maps to a remote tag, the call takes the remote path with no
advisory: it delegates to the Remote Execution Client with the resolved
source path (or the active editor's file when the resolved path does not
exist), except that when neither exists it returns the source-resolution
error result without remote or local execution; with an endpoint but no
mapping, exactly one advisory is emitted and the call runs locally; with
no endpoint, the call runs locally with no advisory. -/
theorem runTestCase_dispatch_policy (apiUrl : Option String)
    (language : Language) (binPath : String) (fsEx : String → Bool)
    (ed : Option String) :
    (apiUrlBlank apiUrl = false →
      ∀ tag, mapLanguageToApi language.name = some tag →
        (runTestCaseDispatch apiUrl language binPath fsEx ed).2 = 0 ∧
        (fsEx (resolveSrcPath language binPath fsEx) = true →
          (runTestCaseDispatch apiUrl language binPath fsEx ed).1 =
            Dispatch.remoteCall (resolveSrcPath language binPath fsEx)) ∧
        (fsEx (resolveSrcPath language binPath fsEx) = false →
          (∀ f, ed = some f →
            (runTestCaseDispatch apiUrl language binPath fsEx ed).1 =
              Dispatch.remoteCall f) ∧
          (ed = none →
            (runTestCaseDispatch apiUrl language binPath fsEx ed).1 =
              Dispatch.srcError cloudSrcErrorRun))) ∧
    (apiUrlBlank apiUrl = false → mapLanguageToApi language.name = none →
      runTestCaseDispatch apiUrl language binPath fsEx ed =
        (Dispatch.localRun, 1)) ∧
    (apiUrlBlank apiUrl = true →
      runTestCaseDispatch apiUrl language binPath fsEx ed =
        (Dispatch.localRun, 0)) := by
  refine ⟨?_, ?_, ?_⟩
  · intro hb tag hm
    refine ⟨?_, ?_, ?_⟩
    · by_cases hfs : fsEx (resolveSrcPath language binPath fsEx) = true
      · simp [runTestCaseDispatch, shouldUseCloudApi, hb, hm, hfs]
      · rcases ed with _ | f <;>
          simp [runTestCaseDispatch, shouldUseCloudApi, hb, hm, hfs]
    · intro hfs
      simp [runTestCaseDispatch, shouldUseCloudApi, hb, hm, hfs]
    · intro hfs
      constructor
      · intro f hf
        subst hf
        simp [runTestCaseDispatch, shouldUseCloudApi, hb, hm, hfs]
      · intro hed
        subst hed
        simp [runTestCaseDispatch, shouldUseCloudApi, hb, hm, hfs]
  · intro hb hm
    simp [runTestCaseDispatch, shouldUseCloudApi, hb, hm]
  · intro hb
    simp [runTestCaseDispatch, shouldUseCloudApi, hb]

/-- C1 witness: a concrete remote-routed call (cpp, existing source next
to the `.bin` binary) and the policy theorem applied to it. -/
theorem runTestCase_dispatch_policy_witness :
    (runTestCaseDispatch (some "http://x")
      { name := LangNames.cpp, compiler := "g++", args := [],
        skipCompile := false }
      "/w/a.bin" (fun p => p == "/w/a.cpp") none).2 = 0 ∧
    (runTestCaseDispatch (some "http://x")
      { name := LangNames.cpp, compiler := "g++", args := [],
        skipCompile := false }
      "/w/a.bin" (fun p => p == "/w/a.cpp") none).1 =
      Dispatch.remoteCall (resolveSrcPath
        { name := LangNames.cpp, compiler := "g++", args := [],
          skipCompile := false }
        "/w/a.bin" (fun p => p == "/w/a.cpp")) :=
  ⟨((runTestCase_dispatch_policy (some "http://x")
      { name := LangNames.cpp, compiler := "g++", args := [],
        skipCompile := false }
      "/w/a.bin" (fun p => p == "/w/a.cpp") none).1 (by decide) "cpp"
      (by decide)).1,
   ((runTestCase_dispatch_policy (some "http://x")
      { name := LangNames.cpp, compiler := "g++", args := [],
        skipCompile := false }
      "/w/a.bin" (fun p => p == "/w/a.cpp") none).1 (by decide) "cpp"
      (by decide)).2.1 (by decide)⟩

/-- C2 counterexample: the timer fires (so the result is marked timed
out and a SIGTERM is sent), but the process catches the signal and exits
normally with code 0 — the call resolves with `timeOut = true` and
`code = some 0`, which is neither an absent code nor a killed state. -/
theorem local_timeout_kill_counterexample :
    (runLocal [LEvent.timerFire, LEvent.exited (some 0) none 5]).resolved =
      some { stdout := "", stderr := "", code := some 0, signal := none,
             time := 5, timeOut := true } := by decide

/-- C2 (amended): when the timeout elapses before any exit or error
event, the timer callback marks `result.timeOut = true` and sends exactly
one default termination signal (SIGTERM), with no escalation or
confirmation; the call resolves only when the process's own exit or error
event arrives, and any such resolution carries `timeOut = true` with the
code/signal the event reported. -/
theorem local_timeout_behavior (es : List LEvent) :
    (firedBeforeTerminal es = true →
      (runLocal es).res.timeOut = true ∧
      (runLocal es).kills = ["SIGTERM"] ∧
      ∀ r, (runLocal es).resolved = some r → r.timeOut = true) ∧
    (noTerminal es = true → (runLocal es).resolved = none) := by
  constructor
  · intro hf
    have h := firedBefore_foldl es initLState ⟨rfl, rfl, rfl, rfl⟩ hf
    exact ⟨h.1, h.2.1, h.2.2.2⟩
  · intro hn
    rw [runLocal, noTerminal_foldl es initLState hn]
    rfl

/-- C2 witness: a concrete timed-out run (SIGTERM kill observed by the
exit event) via the timeout-behavior theorem. -/
theorem local_timeout_behavior_witness :
    (runLocal [LEvent.timerFire,
      LEvent.exited none (some "SIGTERM") 7]).res.timeOut = true ∧
    (runLocal [LEvent.timerFire,
      LEvent.exited none (some "SIGTERM") 7]).kills = ["SIGTERM"] :=
  ⟨((local_timeout_behavior [LEvent.timerFire,
      LEvent.exited none (some "SIGTERM") 7]).1 (by decide)).1,
   ((local_timeout_behavior [LEvent.timerFire,
      LEvent.exited none (some "SIGTERM") 7]).1 (by decide)).2.1⟩

/-- C5 counterexample: the spawn-error path resolves with `code = some 1`
and `signal = some "Error"` simultaneously, so the ended-exactly-one
invariant claimed for every execution result is violated. -/
theorem run_exactly_one_counterexample :
    (runLocal [LEvent.failed "Error" 3]).resolved =
      some { stdout := "", stderr := "", code := some 1,
             signal := some "Error", time := 3, timeOut := false } ∧
    endedExactlyOne
      { stdout := "", stderr := "", code := some 1,
        signal := some "Error", time := 3, timeOut := false } = false := by
  decide

/-- C5 (amended): exactly one of exit-code-present, signal-present,
timed-out holds for every result the remote client returns and for the
source-resolution failure result; a local run in which the timer never
fired and no spawn error occurred satisfies it for any resolution,
provided each exit event reports exactly one of code/signal; the
spawn-error path instead resolves with both an exit code 1 and a signal
name present. -/
theorem result_terminal_characterization :
    (∀ (apiUrl : Option String) (srcPath input : String)
        (language : Language) (env : ApiEnv) (r : Run),
      (compileAndRunViaApi apiUrl srcPath input language env).result =
        CallResult.returned r →
      endedExactlyOne r = true) ∧
    endedExactlyOne cloudSrcErrorRun = true ∧
    (∀ es : List LEvent, noTimerFire es = true → noFailEvent es = true →
      exitsWellFormed es = true →
      ∀ r, (runLocal es).resolved = some r → endedExactlyOne r = true) ∧
    (∀ (es : List LEvent) (n : String) (t : Nat), noTerminal es = true →
      ∃ r, (runLocal (es ++ [LEvent.failed n t])).resolved = some r ∧
        r.code = some 1 ∧ r.signal = some n) := by
  refine ⟨?_, by decide, ?_, ?_⟩
  · intro apiUrl srcPath input language env r h
    obtain ⟨h1, h2, h3⟩ := api_returned_shape apiUrl srcPath input language env r h
    simp [endedExactlyOne, h1, h2, h3]
  · intro es h1 h2 h3 r hr
    have hinit : calmInv initLState := by
      refine ⟨rfl, ?_⟩
      intro r0 hr0
      cases hr0
    exact (calm_foldl es initLState hinit h1 h2 h3).2 r hr
  · intro es n t h
    exact failed_append_resolves es n t h

/-- C5 witness: the exactly-one characterization holds of a concrete
remote success result. -/
theorem result_terminal_characterization_witness :
    endedExactlyOne
      { stdout := "42\n", stderr := "", code := some 0,
        signal := none, time := 3, timeOut := false } = true :=
  result_terminal_characterization.1 (some "http://x") "/a/m.cpp" ""
    { name := LangNames.cpp, compiler := "g++", args := [],
      skipCompile := false }
    { fs0 := [], tmpName := "/tmp/i.txt", srcReadError := none,
      fetch := FetchOutcome.resp 200 none (JsonOutcome.parsed
        { success := true, output := some "42\n", error := none }),
      elapsed := 3 }
    { stdout := "42\n", stderr := "", code := some 0, signal := none,
      time := 3, timeOut := false }
    (by decide)

/-- C6 counterexample: with processes 1 and 2 registered in that order,
process 1's exit handler pops the registry and removes process 2's entry:
the registry is left holding [1] while the still-running set is [2], so
the exiting process is not the one removed and the registry does not
track the still-running processes. -/
theorem registry_pop_counterexample :
    (regRun initRegState [RegEvent.start 1, RegEvent.start 2,
      RegEvent.exitHandler 1]).registry = [1] ∧
    (regRun initRegState [RegEvent.start 1, RegEvent.start 2,
      RegEvent.exitHandler 1]).running = [2] := by decide

/-- C6 (amended): a starting local process is appended to the registry;
every resolution path (exit or error handler) removes the registry's most
recently appended entry — which is the resolving process itself only when
it was registered last; `killRunning` sends a kill to every registered
process but removes no entry; with a single in-flight execution the
registry is left empty after its exit. -/
theorem registry_step_behavior (s : RegState) (p : Nat) :
    (regStep s (RegEvent.start p)).registry = s.registry ++ [p] ∧
    (regStep s (RegEvent.exitHandler p)).registry = s.registry.dropLast ∧
    (regStep s (RegEvent.errorHandler p)).registry = s.registry.dropLast ∧
    (regStep s RegEvent.killAll).registry = s.registry ∧
    (regStep s RegEvent.killAll).kills = s.kills ++ s.registry ∧
    (regRun initRegState [RegEvent.start p, RegEvent.exitHandler p]).registry
      = [] ∧
    (regRun initRegState [RegEvent.start p, RegEvent.exitHandler p]).running
      = [] := by
  refine ⟨rfl, rfl, rfl, rfl, rfl, ?_, ?_⟩ <;>
    simp [regRun, regStep, initRegState]

/-- C9 counterexample: on win32 with a descriptor declaring compiler
`python3`, the descriptor observed after the local launch has
`compiler = "python"` — the call does not leave the Language Descriptor
unchanged. -/
theorem python_alias_mutation_counterexample :
    (localSpawn "win32"
      { name := LangNames.python, compiler := "python3", args := [],
        skipCompile := true } "/a/sol.py" false).1
    ≠ { name := LangNames.python, compiler := "python3", args := [],
        skipCompile := true } := by decide

/-- C9 (amended): the win32 interpreter-alias substitution is applied by
assigning to the descriptor's compiler field before spawn: after a local
launch on win32 with declared compiler `python3` the descriptor's
compiler is `python`; in every other case the descriptor is returned
unchanged. -/
theorem python_alias_spawn_time (plat : String) (language : Language)
    (binPath : String) (oj : Bool) :
    ((plat = "win32" ∧ language.compiler = "python3") →
      (localSpawn plat language binPath oj).1 =
        { language with compiler := "python" }) ∧
    (¬ (plat = "win32" ∧ language.compiler = "python3") →
      (localSpawn plat language binPath oj).1 = language) := by
  constructor
  · intro h
    simp [localSpawn, h]
  · intro h
    simp [localSpawn, h]

/-- C9 witness: a descriptor that is not the win32 python3 case is
returned unchanged by the local launch. -/
theorem python_alias_spawn_time_witness :
    (localSpawn "linux"
      { name := LangNames.cpp, compiler := "g++", args := [],
        skipCompile := false } "/w/a.bin" false).1 =
    { name := LangNames.cpp, compiler := "g++", args := [],
      skipCompile := false } :=
  (python_alias_spawn_time "linux"
    { name := LangNames.cpp, compiler := "g++", args := [],
      skipCompile := false } "/w/a.bin" false).2 (by decide)

/-- C3 counterexample: a 2xx body with `success = false` and a present
but empty error string yields `stderr = "Unknown error"`, not the body's
error string — the `||` fallback treats an empty string like an absent
one. -/
theorem api_2xx_empty_error_counterexample :
    (compileAndRunViaApi (some "http://x") "/a/main.cpp" ""
      { name := LangNames.cpp, compiler := "g++", args := [],
        skipCompile := false }
      { fs0 := [], tmpName := "/tmp/i.txt", srcReadError := none,
        fetch := FetchOutcome.resp 200 none (JsonOutcome.parsed
          { success := false, output := some "x", error := some "" }),
        elapsed := 0 }).result
      = CallResult.returned
          { stdout := "x", stderr := "Unknown error", code := some 1,
            signal := none, time := 0, timeOut := false } ∧
    ("Unknown error" : String) ≠ "" := by decide

/-- C3 (amended): for a 2xx response whose JSON body parses, a
`success = true` body yields exit code 0, stdout equal to the body's
output string and empty stderr; a `success = false` body yields exit code
1, stdout equal to the body's output string, and stderr equal to the
body's error string when that string is present and non-empty, and the
generic fallback when it is absent or empty. -/
theorem api_2xx_result_shape (apiUrl : Option String)
    (srcPath input : String) (language : Language) (tag : String)
    (fs0 : List String) (tmp : String) (status : Nat)
    (textBody : Option String) (j : ApiJson) (el : Nat)
    (hb : apiUrlBlank apiUrl = false)
    (hm : mapLanguageToApi language.name = some tag)
    (hok : 200 ≤ status ∧ status ≤ 299) :
    (j.success = true →
      (compileAndRunViaApi apiUrl srcPath input language
        { fs0 := fs0, tmpName := tmp, srcReadError := none,
          fetch := FetchOutcome.resp status textBody (JsonOutcome.parsed j),
          elapsed := el }).result =
      CallResult.returned
        { stdout := jsOrString j.output "", stderr := "", code := some 0,
          signal := none, time := el, timeOut := false }) ∧
    (j.success = false →
      (compileAndRunViaApi apiUrl srcPath input language
        { fs0 := fs0, tmpName := tmp, srcReadError := none,
          fetch := FetchOutcome.resp status textBody (JsonOutcome.parsed j),
          elapsed := el }).result =
      CallResult.returned
        { stdout := jsOrString j.output "",
          stderr := jsOrString j.error "Unknown error", code := some 1,
          signal := none, time := el, timeOut := false }) ∧
    (∀ out, j.output = some out → jsOrString j.output "" = out) ∧
    (∀ e, j.error = some e → e ≠ "" →
      jsOrString j.error "Unknown error" = e) ∧
    (j.error = none ∨ j.error = some "" →
      jsOrString j.error "Unknown error" = "Unknown error") := by
  refine ⟨?_, ?_, ?_, ?_, ?_⟩
  · intro hsucc
    simp [compileAndRunViaApi, hb, hm, hok, hsucc, finalize_result]
  · intro hsucc
    simp [compileAndRunViaApi, hb, hm, hok, hsucc, finalize_result]
  · intro out ho
    rw [ho]
    by_cases h : out = "" <;> simp [jsOrString, h]
  · intro e hee hne
    rw [hee]
    simp [jsOrString, hne]
  · rintro (he | he) <;> rw [he] <;> rfl

/-- C3 witness: a concrete 2xx success body with output `"42\n"` via the
2xx-shape theorem. -/
theorem api_2xx_result_shape_witness :
    (compileAndRunViaApi (some "http://x") "/a/main.cpp" ""
      { name := LangNames.cpp, compiler := "g++", args := [],
        skipCompile := false }
      { fs0 := [], tmpName := "/tmp/i.txt", srcReadError := none,
        fetch := FetchOutcome.resp 200 none (JsonOutcome.parsed
          { success := true, output := some "42\n", error := none }),
        elapsed := 3 }).result =
    CallResult.returned
      { stdout := jsOrString (some "42\n") "", stderr := "",
        code := some 0, signal := none, time := 3, timeOut := false } :=
  (api_2xx_result_shape (some "http://x") "/a/main.cpp" ""
    { name := LangNames.cpp, compiler := "g++", args := [],
      skipCompile := false }
    "cpp" [] "/tmp/i.txt" 200 none
    { success := true, output := some "42\n", error := none } 3
    (by decide) (by decide) (by decide)).1 (by decide)

/-- C4: every non-2xx HTTP response makes `compileAndRunViaApi` return
(not throw) a result whose exit code is the HTTP status, whose stderr
names the HTTP status and carries the response body text (or the
fallback when the body could not be read), with no signal and no
timeout. -/
theorem api_non2xx_result (apiUrl : Option String) (srcPath input : String)
    (language : Language) (tag : String) (fs0 : List String) (tmp : String)
    (status : Nat) (textBody : Option String) (jsonBody : JsonOutcome)
    (el : Nat)
    (hb : apiUrlBlank apiUrl = false)
    (hm : mapLanguageToApi language.name = some tag)
    (hok : ¬ (200 ≤ status ∧ status ≤ 299)) :
    (compileAndRunViaApi apiUrl srcPath input language
      { fs0 := fs0, tmpName := tmp, srcReadError := none,
        fetch := FetchOutcome.resp status textBody jsonBody,
        elapsed := el }).result =
    CallResult.returned
      { stdout := "",
        stderr := "API request failed with status " ++ toString status ++
          ": " ++ errorTextOf textBody,
        code := some (Int.ofNat status), signal := none, time := el,
        timeOut := false } := by
  simp [compileAndRunViaApi, hb, hm, hok, finalize_result]

/-- C4 witness: the HTTP 500 / body `"internal error"` case of the
non-2xx theorem. -/
theorem api_non2xx_result_witness :
    (compileAndRunViaApi (some "http://x") "/a/main.cpp" ""
      { name := LangNames.cpp, compiler := "g++", args := [],
        skipCompile := false }
      { fs0 := [], tmpName := "/tmp/i.txt", srcReadError := none,
        fetch := FetchOutcome.resp 500 (some "internal error")
          (JsonOutcome.parseFailed "unused"),
        elapsed := 9 }).result =
    CallResult.returned
      { stdout := "",
        stderr := "API request failed with status " ++ toString 500 ++
          ": " ++ errorTextOf (some "internal error"),
        code := some (Int.ofNat 500), signal := none, time := 9,
        timeOut := false } :=
  api_non2xx_result (some "http://x") "/a/main.cpp" ""
    { name := LangNames.cpp, compiler := "g++", args := [],
      skipCompile := false }
    "cpp" [] "/tmp/i.txt" 500 (some "internal error")
    (JsonOutcome.parseFailed "unused") 9
    (by decide) (by decide) (by decide)

/-- C7: whenever a call past the guard throws creates a temp input file
(non-blank input), the file is absent from the filesystem after the
`finally` cleanup on every exit path (any fetch outcome, source-read
failure included), and removing an already-absent temp path never
raises. -/
theorem api_temp_cleanup (apiUrl : Option String) (srcPath input : String)
    (language : Language) (env : ApiEnv) (tag : String)
    (hb : apiUrlBlank apiUrl = false)
    (hm : mapLanguageToApi language.name = some tag)
    (ht : wsTrim input ≠ "") :
    env.tmpName ∉ (compileAndRunViaApi apiUrl srcPath input language
      env).fsFinal ∧
    (compileAndRunViaApi apiUrl srcPath input language env).tempCreated
      = true ∧
    (∀ fs p, p ∉ fs → cleanupTempInput fs (some p) = Except.ok fs) := by
  have hct : (!(input == "") && !(wsTrim input == "")) = true :=
    (createsTemp_iff input).mpr ht
  refine ⟨?_, ?_, ?_⟩
  · rw [api_fsFinal_val apiUrl srcPath input language env tag hb hm,
      if_pos hct, if_pos hct]
    exact cleanupFs_removes (env.tmpName :: env.fs0) env.tmpName
  · rw [api_tempCreated_val apiUrl srcPath input language env tag hb hm]
    exact hct
  · intro fs p hp
    simp [cleanupTempInput, hp]

/-- C7 witness: a concrete call with input `"data"` over an HTTP 500
outcome, via the cleanup theorem. -/
theorem api_temp_cleanup_witness :
    "/tmp/i.txt" ∉ (compileAndRunViaApi (some "http://x") "/a/main.cpp"
      "data"
      { name := LangNames.cpp, compiler := "g++", args := [],
        skipCompile := false }
      { fs0 := ["/a/main.cpp"], tmpName := "/tmp/i.txt",
        srcReadError := none,
        fetch := FetchOutcome.resp 500 (some "oops")
          (JsonOutcome.parseFailed "unused"),
        elapsed := 2 }).fsFinal ∧
    (compileAndRunViaApi (some "http://x") "/a/main.cpp" "data"
      { name := LangNames.cpp, compiler := "g++", args := [],
        skipCompile := false }
      { fs0 := ["/a/main.cpp"], tmpName := "/tmp/i.txt",
        srcReadError := none,
        fetch := FetchOutcome.resp 500 (some "oops")
          (JsonOutcome.parseFailed "unused"),
        elapsed := 2 }).tempCreated = true :=
  ⟨(api_temp_cleanup (some "http://x") "/a/main.cpp" "data"
      { name := LangNames.cpp, compiler := "g++", args := [],
        skipCompile := false }
      { fs0 := ["/a/main.cpp"], tmpName := "/tmp/i.txt",
        srcReadError := none,
        fetch := FetchOutcome.resp 500 (some "oops")
          (JsonOutcome.parseFailed "unused"),
        elapsed := 2 } "cpp" (by decide) (by decide) (by decide)).1,
   (api_temp_cleanup (some "http://x") "/a/main.cpp" "data"
      { name := LangNames.cpp, compiler := "g++", args := [],
        skipCompile := false }
      { fs0 := ["/a/main.cpp"], tmpName := "/tmp/i.txt",
        srcReadError := none,
        fetch := FetchOutcome.resp 500 (some "oops")
          (JsonOutcome.parseFailed "unused"),
        elapsed := 2 } "cpp" (by decide) (by decide) (by decide)).2.1⟩

/-- C8 counterexample: a whitespace-only input `" "` is non-empty, yet
the call creates no temp input file and attaches no input part — the
claimed iff with "input payload is non-empty" fails. -/
theorem api_input_part_counterexample :
    (compileAndRunViaApi (some "http://x") "/a/main.cpp" " "
      { name := LangNames.cpp, compiler := "g++", args := [],
        skipCompile := false }
      { fs0 := [], tmpName := "/tmp/i.txt", srcReadError := none,
        fetch := FetchOutcome.resp 200 none (JsonOutcome.parsed
          { success := true, output := some "", error := none }),
        elapsed := 0 }).tempCreated = false ∧
    (compileAndRunViaApi (some "http://x") "/a/main.cpp" " "
      { name := LangNames.cpp, compiler := "g++", args := [],
        skipCompile := false }
      { fs0 := [], tmpName := "/tmp/i.txt", srcReadError := none,
        fetch := FetchOutcome.resp 200 none (JsonOutcome.parsed
          { success := true, output := some "", error := none }),
        elapsed := 0 }).request =
      some { lang := "cpp", codeFileName := "main.cpp",
             hasInputPart := false } ∧
    (" " : String) ≠ "" := by decide

/-- C8 (amended): past the guard throws and with a readable source, the
temp input file is created if and only if the input payload is non-blank
(non-empty after trimming), and the multipart request carries an input
part if and only if the same condition holds. -/
theorem api_input_part_iff_nonblank (apiUrl : Option String)
    (srcPath input : String) (language : Language) (tag : String)
    (fs0 : List String) (tmp : String) (fetch : FetchOutcome) (el : Nat)
    (hb : apiUrlBlank apiUrl = false)
    (hm : mapLanguageToApi language.name = some tag) :
    ((compileAndRunViaApi apiUrl srcPath input language
        { fs0 := fs0, tmpName := tmp, srcReadError := none, fetch := fetch,
          elapsed := el }).tempCreated = true ↔ wsTrim input ≠ "") ∧
    (∀ rq, (compileAndRunViaApi apiUrl srcPath input language
        { fs0 := fs0, tmpName := tmp, srcReadError := none, fetch := fetch,
          elapsed := el }).request = some rq →
      (rq.hasInputPart = true ↔ wsTrim input ≠ "")) := by
  constructor
  · rw [api_tempCreated_val apiUrl srcPath input language
      { fs0 := fs0, tmpName := tmp, srcReadError := none, fetch := fetch,
        elapsed := el } tag hb hm]
    exact createsTemp_iff input
  · intro rq hrq
    rw [api_request_val apiUrl srcPath input language tag fs0 tmp fetch el
      hb hm] at hrq
    injection hrq with hrq2
    rw [← hrq2]
    exact createsTemp_iff input

/-- C8 witness: a concrete call with input `"data"` creates the temp
artifact, via the iff theorem. -/
theorem api_input_part_iff_nonblank_witness :
    ((compileAndRunViaApi (some "http://x") "/a/main.cpp" "data"
      { name := LangNames.cpp, compiler := "g++", args := [],
        skipCompile := false }
      { fs0 := [], tmpName := "/tmp/i.txt", srcReadError := none,
        fetch := FetchOutcome.thrown (some "fetch failed"),
        elapsed := 1 }).tempCreated = true ↔ wsTrim "data" ≠ "") :=
  (api_input_part_iff_nonblank (some "http://x") "/a/main.cpp" "data"
    { name := LangNames.cpp, compiler := "g++", args := [],
      skipCompile := false }
    "cpp" [] "/tmp/i.txt" (FetchOutcome.thrown (some "fetch failed")) 1
    (by decide) (by decide)).1

/-- C10: every result the remote client returns — on the 2xx success,
2xx failure, non-2xx and network-exception paths alike — has
`signal = none` and `timeOut = false`. -/
theorem api_result_no_signal_no_timeout (apiUrl : Option String)
    (srcPath input : String) (language : Language) (env : ApiEnv) (r : Run)
    (h : (compileAndRunViaApi apiUrl srcPath input language env).result =
      CallResult.returned r) :
    r.signal = none ∧ r.timeOut = false :=
  ⟨(api_returned_shape apiUrl srcPath input language env r h).1,
   (api_returned_shape apiUrl srcPath input language env r h).2.1⟩

/-- C10 witness: the network-exception path at a concrete input, via the
no-signal-no-timeout theorem. -/
theorem api_result_no_signal_no_timeout_witness :
    ({ stdout := "", stderr := "fetch failed", code := some 1,
       signal := none, time := 4, timeOut := false } : Run).signal = none ∧
    ({ stdout := "", stderr := "fetch failed", code := some 1,
       signal := none, time := 4, timeOut := false } : Run).timeOut
      = false :=
  api_result_no_signal_no_timeout (some "http://x") "/a/main.cpp" ""
    { name := LangNames.cpp, compiler := "g++", args := [],
      skipCompile := false }
    { fs0 := [], tmpName := "/tmp/i.txt", srcReadError := none,
      fetch := FetchOutcome.thrown (some "fetch failed"), elapsed := 4 }
    { stdout := "", stderr := "fetch failed", code := some 1,
      signal := none, time := 4, timeOut := false }
    (by decide)

end Cph
